import Mathlib

/-!
Verification development for the `ak-diagnostic` runtime diagnostic sampler.

The JavaScript source (`index.js`) is shallowly embedded here:

* pure helpers `formatBytes` / `formatDuration` become Lean functions over
  `Nat` / `Int` (`Math.floor` is `Int.fdiv`, the JS `%` remainder is
  `Int.tmod`, and `toFixed(2)` is modelled by `toFixed2` on exact rationals);
* the `MemorySnapshot` / `CPUSnapshot` classes become structures built by
  explicit constructor functions that receive the ambient readings
  (`process.memoryUsage()` / `process.cpuUsage()` values) and the current
  `Date.now()` timestamp as parameters;
* JS floating-point division, which can produce `Infinity` and `NaN` when the
  divisor is zero, is modelled by the `JSNum` type over exact rationals;
* the stateful `Diagnostics` class becomes a record of its fields, and each
  method becomes a state-passing function parameterised by the timestamp at
  which it runs and by a `TickEnv` describing what the fallible OS capture
  calls inside `_takeSample` return on that tick (`none` models the call
  throwing, which the surrounding `try { ... } catch {}` swallows);
* timer-driven interval sampling becomes the explicit operation `tick`,
  enabled exactly while the interval handle set up by `start` is armed;
* the `EventLoopMonitor` (lag sampler) and the one-shot `_collectSystemInfo`
  snapshot are independent of every property proved here (they only feed
  presentation fields of the report) and are not modelled; the report record
  below carries the numeric fields of the report object, omitting the
  human-readable string duplicates and the echoed environment snapshot.

JS truthiness tests on nullable numbers (`options.interval || 5000`,
`if (this.threshold && ...)`, `if (this.lastTargetCheck)`, `this.endTime ||
Date.now()`) are translated faithfully: `none` and `some 0` are both falsy.
-/

/-! ## Formatting helpers (`formatBytes`, `formatDuration`) -/

/-- Floor logarithm with explicit fuel; `floorLogAux fuel b n` computes
`floor (log n / log b)` for `2 ≤ b` and `1 ≤ n` as long as `n ≤ fuel`. -/
def floorLogAux : Nat → Nat → Nat → Nat
  | 0, _, _ => 0
  | fuel + 1, b, n => if n < b then 0 else floorLogAux fuel b (n / b) + 1

/-- `Math.floor(Math.log(n) / Math.log(b))` for a positive integer `n`. -/
def floorLog (b n : Nat) : Nat := floorLogAux n b n

/-- `(num / den).toFixed(2)` for exact nonnegative rationals `num / den`
(`den ≠ 0`): scale by 100, round half up, and print two decimals. -/
def toFixed2 (num den : Nat) : String :=
  let scaled := (num * 200 + den) / (2 * den)
  let ip := scaled / 100
  let fp := scaled % 100
  toString ip ++ "." ++ (if fp < 10 then "0" ++ toString fp else toString fp)

/-- The `sizes` array of `formatBytes`. -/
def sizesList : List String := ["B", "KB", "MB", "GB", "TB"]

/-- `formatBytes(bytes)`: `0` prints as `"0 B"`; otherwise the value is scaled
by `1024^i` with `i = Math.floor(Math.log(bytes)/Math.log(1024))` and printed
with two decimals. An index beyond the `sizes` array yields the string
`"undefined"`, as the JS template literal would. -/
def formatBytes (bytes : Nat) : String :=
  if bytes = 0 then "0 B"
  else
    let i := floorLog 1024 bytes
    toFixed2 bytes (1024 ^ i) ++ " " ++ sizesList.getD i "undefined"

/-- `formatDuration(ms)`: break the duration into days/hours/minutes/seconds
(`Math.floor` division) and print the coarsest nonzero unit group, falling
back to a raw millisecond count. -/
def formatDuration (ms : Int) : String :=
  let seconds := Int.fdiv ms 1000
  let minutes := Int.fdiv seconds 60
  let hours := Int.fdiv minutes 60
  let days := Int.fdiv hours 24
  if 0 < days then
    toString days ++ "d " ++ toString (Int.tmod hours 24) ++ "h " ++
      toString (Int.tmod minutes 60) ++ "m " ++ toString (Int.tmod seconds 60) ++ "s"
  else if 0 < hours then
    toString hours ++ "h " ++ toString (Int.tmod minutes 60) ++ "m " ++
      toString (Int.tmod seconds 60) ++ "s"
  else if 0 < minutes then
    toString minutes ++ "m " ++ toString (Int.tmod seconds 60) ++ "s"
  else if 0 < seconds then
    toString seconds ++ "s"
  else
    toString ms ++ "ms"

/-! ## JS number semantics for the CPU-percentage division -/

/-- A JS `number` as produced by the CPU-percentage arithmetic: an exact
rational, one of the two infinities, or `NaN`. -/
inductive JSNum where
  | finite (q : ℚ)
  | posInf
  | negInf
  | nan
deriving DecidableEq, Repr

/-- JS division `a / b` on exact values: division by zero yields `Infinity`,
`-Infinity` or `NaN` according to the sign of the dividend. -/
def jsDiv (a b : ℚ) : JSNum :=
  if b = 0 then
    if 0 < a then JSNum.posInf else if a < 0 then JSNum.negInf else JSNum.nan
  else JSNum.finite (a / b)

/-- Multiplication by the positive constant `100` (`x * 100` in JS preserves
infinities and `NaN`). -/
def JSNum.mul100 : JSNum → JSNum
  | JSNum.finite q => JSNum.finite (q * 100)
  | JSNum.posInf => JSNum.posInf
  | JSNum.negInf => JSNum.negInf
  | JSNum.nan => JSNum.nan

/-- JS addition, as used by `reduce((a, b) => a + b)`. -/
def jsAdd : JSNum → JSNum → JSNum
  | JSNum.nan, _ => JSNum.nan
  | _, JSNum.nan => JSNum.nan
  | JSNum.posInf, JSNum.negInf => JSNum.nan
  | JSNum.negInf, JSNum.posInf => JSNum.nan
  | JSNum.posInf, _ => JSNum.posInf
  | _, JSNum.posInf => JSNum.posInf
  | JSNum.negInf, _ => JSNum.negInf
  | _, JSNum.negInf => JSNum.negInf
  | JSNum.finite a, JSNum.finite b => JSNum.finite (a + b)

/-- `Math.max` on two JS numbers (`NaN` absorbs). -/
def jsMax : JSNum → JSNum → JSNum
  | JSNum.nan, _ => JSNum.nan
  | _, JSNum.nan => JSNum.nan
  | JSNum.posInf, _ => JSNum.posInf
  | _, JSNum.posInf => JSNum.posInf
  | JSNum.negInf, y => y
  | x, JSNum.negInf => x
  | JSNum.finite a, JSNum.finite b => JSNum.finite (max a b)

/-- `Math.min` on two JS numbers (`NaN` absorbs). -/
def jsMin : JSNum → JSNum → JSNum
  | JSNum.nan, _ => JSNum.nan
  | _, JSNum.nan => JSNum.nan
  | JSNum.negInf, _ => JSNum.negInf
  | _, JSNum.negInf => JSNum.negInf
  | JSNum.posInf, y => y
  | x, JSNum.posInf => x
  | JSNum.finite a, JSNum.finite b => JSNum.finite (min a b)

/-- Division of a JS number by a positive sample count (`sum / values.length`,
only reached when the length is nonzero). -/
def jsDivByLen (x : JSNum) (n : ℚ) : JSNum :=
  match x with
  | JSNum.finite q => JSNum.finite (q / n)
  | JSNum.posInf => JSNum.posInf
  | JSNum.negInf => JSNum.negInf
  | JSNum.nan => JSNum.nan

/-! ## Snapshot value types -/

/-- The readings delivered by one `process.memoryUsage()` call
(`arrayBuffers` may be absent on old runtimes, hence the `|| 0` fallback in
the snapshot constructor). -/
structure MemUsage where
  rss : Int
  heapTotal : Int
  heapUsed : Int
  external : Int
  arrayBuffers : Option Int
deriving DecidableEq, Repr

/-- The readings delivered by one `process.cpuUsage()` call: cumulative user
and system CPU time in microseconds. -/
structure CpuUsage where
  user : Int
  system : Int
deriving DecidableEq, Repr

/-- The `MemorySnapshot` class: a point-in-time memory capture. -/
structure MemorySnapshot where
  timestamp : Int
  rss : Int
  heapTotal : Int
  heapUsed : Int
  external : Int
  arrayBuffers : Int
deriving DecidableEq, Repr

/-- The `MemorySnapshot` constructor, given `Date.now()` and the
`process.memoryUsage()` readings. -/
def mkMemorySnapshot (now : Int) (memUsage : MemUsage) : MemorySnapshot :=
  { timestamp := now
    rss := memUsage.rss
    heapTotal := memUsage.heapTotal
    heapUsed := memUsage.heapUsed
    external := memUsage.external
    arrayBuffers := memUsage.arrayBuffers.getD 0 }

/-- The `total` getter: an alias for `heapUsed`. -/
def MemorySnapshot.total (s : MemorySnapshot) : Int := s.heapUsed

/-- The `CPUSnapshot` class: timestamp, raw cumulative usage, and the derived
percentage relative to the previous snapshot. -/
structure CPUSnapshot where
  timestamp : Int
  usage : CpuUsage
  percentage : JSNum
deriving DecidableEq, Repr

/-- The `CPUSnapshot` constructor, given `Date.now()`, the
`process.cpuUsage()` readings and the optional previous snapshot. With no
previous snapshot the percentage stays `0`; otherwise it is
`(totalDelta / (timeDelta * 1000)) * 100` under JS division semantics. -/
def mkCPUSnapshot (now : Int) (usage : CpuUsage) (previousUsage : Option CPUSnapshot) :
    CPUSnapshot :=
  match previousUsage with
  | none => { timestamp := now, usage := usage, percentage := JSNum.finite 0 }
  | some prev =>
    let timeDelta : Int := now - prev.timestamp
    let userDelta : Int := usage.user - prev.usage.user
    let systemDelta : Int := usage.system - prev.usage.system
    let totalDelta : Int := userDelta + systemDelta
    { timestamp := now
      usage := usage
      percentage := (jsDiv (totalDelta : ℚ) ((timeDelta : ℚ) * 1000)).mul100 }

/-! ## The `Diagnostics` state and its operations -/

/-- JS truthiness of a nullable number: `null` and `0` are falsy. -/
def optTruthy : Option Int → Bool
  | some v => v != 0
  | none => false

/-- `x || dflt` for a nullable number `x`: `null` and `0` fall back. -/
def jsOrElse (x : Option Int) (dflt : Int) : Int :=
  match x with
  | some v => if v = 0 then dflt else v
  | none => dflt

/-- `x || null` for a nullable number `x`: `0` collapses to `null`. -/
def jsOrNull (x : Option Int) : Option Int :=
  match x with
  | some v => if v = 0 then none else some v
  | none => none

/-- The options object accepted by the `Diagnostics` constructor. A `none`
field models the key being absent. The alert callback is represented by an
opaque identifier (its code is caller-supplied and failure-contained). -/
structure Options where
  name : Option String := none
  interval : Option Int := none
  threshold : Option Int := none
  alert : Option Nat := none
  target : Option Int := none
  monitorEventLoop : Option Bool := none
deriving DecidableEq, Repr

/-- The `Diagnostics` instance: configuration fields followed by the mutable
collection state. `intervalArmed` models `intervalHandle !== null`. -/
structure Diagnostics where
  name : String
  interval : Int
  threshold : Option Int
  alert : Option Nat
  target : Option Int
  monitorEventLoop : Bool
  running : Bool
  startTime : Option Int
  endTime : Option Int
  intervalArmed : Bool
  memorySamples : List MemorySnapshot
  cpuSamples : List CPUSnapshot
  alertTriggerCount : Int
  timeOverTarget : Int
  lastTargetCheck : Option Int
deriving DecidableEq, Repr

/-- The `Diagnostics` constructor. A falsy `name` (absent or the empty
string) throws synchronously; every other configuration is accepted, with
falsy `interval`/`threshold`/`target` collapsing to their defaults. -/
def mkDiagnostics (options : Options) : Except String Diagnostics :=
  if options.name.getD "" = "" then
    Except.error "Diagnostics requires a \"name\" option"
  else
    Except.ok
      { name := options.name.getD ""
        interval := jsOrElse options.interval 5000
        threshold := jsOrNull options.threshold
        alert := options.alert
        target := jsOrNull options.target
        monitorEventLoop := options.monitorEventLoop ≠ some false
        running := false
        startTime := none
        endTime := none
        intervalArmed := false
        memorySamples := []
        cpuSamples := []
        alertTriggerCount := 0
        timeOverTarget := 0
        lastTargetCheck := none }

/-- Whether construction succeeded. -/
def exceptIsOk : Except String Diagnostics → Bool
  | Except.ok _ => true
  | Except.error _ => false

/-- What the two fallible OS capture calls inside `_takeSample` return on one
tick; `none` models the call throwing (caught by the tick's `try`/`catch`). -/
structure TickEnv where
  mem : Option MemUsage
  cpu : Option CpuUsage
deriving DecidableEq, Repr

/-- `_takeSample`: push a memory snapshot, push a CPU snapshot computed from
the last one, run the threshold check, and do the target time accounting.
The `try`/`catch` wrapper means a throwing capture call abandons the rest of
the tick but keeps the updates already applied; the alert callback invocation
is separately contained by `safeExecute` and has no effect on this state. -/
def Diagnostics.takeSample (d : Diagnostics) (now : Int) (env : TickEnv) : Diagnostics :=
  match env.mem with
  | none => d
  | some memUsage =>
    let memSample := mkMemorySnapshot now memUsage
    let d1 := { d with memorySamples := d.memorySamples ++ [memSample] }
    match env.cpu with
    | none => d1
    | some cpuUsage =>
      let lastCpuSample := d1.cpuSamples.getLast?
      let cpuSample := mkCPUSnapshot now cpuUsage lastCpuSample
      let d2 := { d1 with cpuSamples := d1.cpuSamples ++ [cpuSample] }
      let d3 :=
        if optTruthy d2.threshold ∧ d2.threshold.getD 0 < memSample.total then
          { d2 with alertTriggerCount := d2.alertTriggerCount + 1 }
        else d2
      if optTruthy d3.target then
        let d4 :=
          if optTruthy d3.lastTargetCheck ∧ d3.target.getD 0 < memSample.total then
            { d3 with timeOverTarget :=
                d3.timeOverTarget + (now - d3.lastTargetCheck.getD 0) }
          else d3
        { d4 with lastTargetCheck := some now }
      else d3

/-- `start()`: a no-op while running; otherwise clear the collected state,
record the start time, take the immediate first sample, and arm the interval
timer. -/
def Diagnostics.start (d : Diagnostics) (now : Int) (env : TickEnv) : Diagnostics :=
  if d.running then d
  else
    let d1 := { d with
      running := true
      startTime := some now
      memorySamples := []
      cpuSamples := []
      alertTriggerCount := 0
      timeOverTarget := 0
      lastTargetCheck := some now }
    let d2 := d1.takeSample now env
    { d2 with intervalArmed := true }

/-- `stop()`: a no-op while not running; otherwise record the end time, take
the final sample, and cancel the interval timer. -/
def Diagnostics.stop (d : Diagnostics) (now : Int) (env : TickEnv) : Diagnostics :=
  if !d.running then d
  else
    let d1 := { d with running := false, endTime := some now }
    let d2 := d1.takeSample now env
    { d2 with intervalArmed := false }

/-- One firing of the interval timer armed by `start`: it runs `_takeSample`
exactly while the handle is armed. -/
def Diagnostics.tick (d : Diagnostics) (now : Int) (env : TickEnv) : Diagnostics :=
  if d.intervalArmed then d.takeSample now env else d

/-- `reset()`: `stop()` followed by clearing every accumulated field; the
configuration fields are untouched. -/
def Diagnostics.reset (d : Diagnostics) (now : Int) (env : TickEnv) : Diagnostics :=
  let d1 := d.stop now env
  { d1 with
    memorySamples := []
    cpuSamples := []
    alertTriggerCount := 0
    timeOverTarget := 0
    lastTargetCheck := none
    startTime := none
    endTime := none }

/-- The value returned by `status()`. -/
structure Status where
  running : Bool
  name : String
  samplesCollected : Nat
  uptime : Int
deriving DecidableEq, Repr

/-- `status()`: `uptime` is `Date.now() - this.startTime` while running (JS
coerces a `null` start time to `0`), else `0`. -/
def Diagnostics.status (d : Diagnostics) (now : Int) : Status :=
  { running := d.running
    name := d.name
    samplesCollected := d.memorySamples.length
    uptime := if d.running then now - d.startTime.getD 0 else 0 }

/-! ## Statistics and report synthesis -/

/-- `_calculateStats` output for byte-valued sample sequences. -/
structure StatsQ where
  peak : ℚ
  average : ℚ
  low : ℚ
deriving DecidableEq, Repr

/-- `_calculateStats` output for the CPU-percentage sequence. -/
structure StatsJS where
  peak : JSNum
  average : JSNum
  low : JSNum
deriving DecidableEq, Repr

/-- `_calculateStats` over exact byte values: zero-filled when empty, else
`Math.max`, arithmetic mean, and `Math.min` over the projected values. -/
def calculateStatsQ (values : List ℚ) : StatsQ :=
  match values with
  | [] => { peak := 0, average := 0, low := 0 }
  | v :: vs =>
    { peak := vs.foldl max v
      average := (v :: vs).foldl (· + ·) 0 / ((v :: vs).length : ℚ)
      low := vs.foldl min v }

/-- `_calculateStats` over CPU percentages, under JS number semantics. -/
def calculateStatsJS (values : List JSNum) : StatsJS :=
  match values with
  | [] => { peak := JSNum.finite 0, average := JSNum.finite 0, low := JSNum.finite 0 }
  | v :: vs =>
    { peak := vs.foldl jsMax v
      average := jsDivByLen (vs.foldl jsAdd v) ((v :: vs).length : ℚ)
      low := vs.foldl jsMin v }

/-- The numeric content of the report object (human-readable string
duplicates, the event-loop block and the echoed environment snapshot carry no
additional state and are omitted). -/
structure Report where
  name : String
  memoryStats : StatsQ
  heapStats : StatsQ
  rssStats : StatsQ
  cpuStats : StatsJS
  clockStartTime : Option Int
  clockEndTime : Option Int
  clockDuration : Int
  numSamples : Nat
  numOfAlertTriggers : Int
  timeOverTarget : Int
  timeUnderTarget : Int
  samplingInterval : Int
  threshold : Option Int
  target : Option Int
deriving DecidableEq, Repr

/-- The report computation over an already-stopped state: `duration` uses the
JS `||`-fallback to `Date.now()` on both clock ends, `timeUnderTarget` is
derived by subtraction, memory statistics run over all samples while CPU
statistics run over `cpuSamples.slice(1)`. -/
def Diagnostics.reportFrom (d : Diagnostics) (now : Int) : Report :=
  let duration := jsOrElse d.endTime now - jsOrElse d.startTime now
  let timeUnderTarget := max 0 (duration - d.timeOverTarget)
  { name := d.name
    memoryStats := calculateStatsQ (d.memorySamples.map (fun s => (s.total : ℚ)))
    heapStats := calculateStatsQ (d.memorySamples.map (fun s => (s.heapUsed : ℚ)))
    rssStats := calculateStatsQ (d.memorySamples.map (fun s => (s.rss : ℚ)))
    cpuStats := calculateStatsJS ((d.cpuSamples.drop 1).map (fun s => s.percentage))
    clockStartTime := d.startTime
    clockEndTime := d.endTime
    clockDuration := duration
    numSamples := d.memorySamples.length
    numOfAlertTriggers := d.alertTriggerCount
    timeOverTarget := d.timeOverTarget
    timeUnderTarget := timeUnderTarget
    samplingInterval := d.interval
    threshold := d.threshold
    target := d.target }

/-- `report()`: stop first when still running (taking the final sample with
the ambient captures `env`), then synthesise the report. -/
def Diagnostics.report (d : Diagnostics) (now : Int) (env : TickEnv) : Report :=
  (d.stop now env).reportFrom now

/-! ## Operation sequences -/

/-- One externally observable operation on a session, tagged with the
`Date.now()` timestamp at which it runs and the capture outcomes its
(possible) sample tick sees. -/
inductive Op where
  | start (now : Int) (env : TickEnv)
  | stop (now : Int) (env : TickEnv)
  | tick (now : Int) (env : TickEnv)
  | reset (now : Int) (env : TickEnv)
  | report (now : Int) (env : TickEnv)
deriving DecidableEq, Repr

/-- The timestamp of an operation. -/
def Op.time : Op → Int
  | Op.start now _ => now
  | Op.stop now _ => now
  | Op.tick now _ => now
  | Op.reset now _ => now
  | Op.report now _ => now

/-- The tick environment of an operation. -/
def Op.env : Op → TickEnv
  | Op.start _ env => env
  | Op.stop _ env => env
  | Op.tick _ env => env
  | Op.reset _ env => env
  | Op.report _ env => env

/-- Whether the operation is a `reset`. -/
def Op.isReset : Op → Bool
  | Op.reset _ _ => true
  | _ => false

/-- The state effect of one operation (`report()`'s only state effect is its
implicit `stop()`). -/
def applyOp (d : Diagnostics) : Op → Diagnostics
  | Op.start now env => d.start now env
  | Op.stop now env => d.stop now env
  | Op.tick now env => d.tick now env
  | Op.reset now env => d.reset now env
  | Op.report now env => d.stop now env

/-- Run a sequence of operations. -/
def runOps (d : Diagnostics) (ops : List Op) : Diagnostics :=
  ops.foldl applyOp d

/-- Run a sequence of interval-timer firings given as (timestamp, captures)
pairs. -/
def runTicks (d : Diagnostics) (ticks : List (Int × TickEnv)) : Diagnostics :=
  ticks.foldl (fun s p => s.tick p.1 p.2) d
/-! ## Supporting lemmas -/

/-- `_takeSample` only touches the sample sequences, the alert counter, the
target accumulator and the target checkpoint. -/
theorem takeSample_frame (d : Diagnostics) (now : Int) (env : TickEnv) :
    (d.takeSample now env).name = d.name ∧
    (d.takeSample now env).interval = d.interval ∧
    (d.takeSample now env).threshold = d.threshold ∧
    (d.takeSample now env).alert = d.alert ∧
    (d.takeSample now env).target = d.target ∧
    (d.takeSample now env).monitorEventLoop = d.monitorEventLoop ∧
    (d.takeSample now env).running = d.running ∧
    (d.takeSample now env).startTime = d.startTime ∧
    (d.takeSample now env).endTime = d.endTime ∧
    (d.takeSample now env).intervalArmed = d.intervalArmed := by
  rcases env with ⟨mem, cpu⟩
  cases mem <;> cases cpu <;> (simp only [Diagnostics.takeSample]; try split_ifs) <;> simp

/-- When both capture calls succeed, `_takeSample` appends exactly one sample
to each sequence. -/
theorem takeSample_ok_lengths (d : Diagnostics) (now : Int) (mu : MemUsage) (cu : CpuUsage) :
    (d.takeSample now ⟨some mu, some cu⟩).memorySamples.length = d.memorySamples.length + 1 ∧
    (d.takeSample now ⟨some mu, some cu⟩).cpuSamples.length = d.cpuSamples.length + 1 := by
  simp only [Diagnostics.takeSample]
  split_ifs <;> simp

/-- The target-tracking invariant is preserved by one `_takeSample` at a
timestamp past the current checkpoint: the checkpoint moves forward at most
to `now` and the accumulated over-target time stays at most
`checkpoint - startTime`. -/
theorem takeSample_target_inv (d : Diagnostics) (now : Int) (env : TickEnv) (s c : Int)
    (hs : d.startTime = some s) (hc : d.lastTargetCheck = some c)
    (htot : d.timeOverTarget ≤ c - s) (hcn : c ≤ now) :
    ∃ c', (d.takeSample now env).startTime = some s ∧
      (d.takeSample now env).lastTargetCheck = some c' ∧
      (d.takeSample now env).timeOverTarget ≤ c' - s ∧
      c ≤ c' ∧ c' ≤ now := by
  rcases env with ⟨mem, cpu⟩
  cases mem with
  | none => exact ⟨c, hs, hc, htot, le_refl c, hcn⟩
  | some mu =>
    cases cpu with
    | none => exact ⟨c, hs, hc, htot, le_refl c, hcn⟩
    | some cu =>
      simp only [Diagnostics.takeSample]
      split_ifs with h1 h2 h3 h4 h5 <;>
        simp_all [optTruthy] <;> omega

/-- `_takeSample` never removes samples, and whenever it appends a CPU sample
to an empty CPU sequence that sample was built without a predecessor. -/
theorem takeSample_cpu_head (d : Diagnostics) (now : Int) (env : TickEnv)
    (h : ∀ x ∈ d.cpuSamples.head?, x.percentage = JSNum.finite 0) :
    ∀ x ∈ (d.takeSample now env).cpuSamples.head?, x.percentage = JSNum.finite 0 := by
  rcases env with ⟨mem, cpu⟩
  cases mem with
  | none => exact h
  | some mu =>
    cases cpu with
    | none => exact h
    | some cu =>
      simp only [Diagnostics.takeSample]
      have hcs : ∀ x ∈ (d.cpuSamples ++
          [mkCPUSnapshot now cu d.cpuSamples.getLast?]).head?, x.percentage = JSNum.finite 0 := by
        cases hd : d.cpuSamples with
        | nil => simp [mkCPUSnapshot]
        | cons a as =>
          intro x hx
          apply h
          simp [hd] at hx ⊢
          exact hx
      split_ifs <;> simpa using hcs

/-- Every operation preserves the head-of-CPU-sequence invariant: the first
CPU sample of a session always carries percentage `0`. -/
theorem applyOp_cpu_head (d : Diagnostics) (op : Op)
    (h : ∀ x ∈ d.cpuSamples.head?, x.percentage = JSNum.finite 0) :
    ∀ x ∈ (applyOp d op).cpuSamples.head?, x.percentage = JSNum.finite 0 := by
  have hstop : ∀ (now : Int) (env : TickEnv),
      ∀ x ∈ (d.stop now env).cpuSamples.head?, x.percentage = JSNum.finite 0 := by
    intro now env
    simp only [Diagnostics.stop]
    split_ifs with hr
    · exact h
    · simpa using takeSample_cpu_head { d with running := false, endTime := some now } now env h
  cases op with
  | start now env =>
    simp only [applyOp, Diagnostics.start]
    split_ifs with hr
    · exact h
    · have hbase : ∀ x ∈ (({ d with
          running := true, startTime := some now, memorySamples := [],
          cpuSamples := [], alertTriggerCount := 0, timeOverTarget := 0,
          lastTargetCheck := some now } : Diagnostics)).cpuSamples.head?,
          x.percentage = JSNum.finite 0 := by simp
      simpa using takeSample_cpu_head _ now env hbase
  | stop now env => exact hstop now env
  | tick now env =>
    simp only [applyOp, Diagnostics.tick]
    split_ifs with hr
    · exact takeSample_cpu_head d now env h
    · exact h
  | reset now env =>
    simp only [applyOp, Diagnostics.reset]
    simp
  | report now env => exact hstop now env

/-- Every operation whose capture calls both succeed preserves the
length-parity invariant between the memory and CPU sample sequences. -/
theorem applyOp_parity (d : Diagnostics) (op : Op)
    (hm : op.env.mem.isSome = true) (hc : op.env.cpu.isSome = true)
    (h : d.memorySamples.length = d.cpuSamples.length) :
    (applyOp d op).memorySamples.length = (applyOp d op).cpuSamples.length := by
  have hsome : ∃ mu cu, op.env = ⟨some mu, some cu⟩ := by
    rcases henv : op.env with ⟨mem, cpu⟩
    rw [henv] at hm hc
    cases mem <;> cases cpu <;> simp_all
  obtain ⟨mu, cu, henv⟩ := hsome
  have hstop : ∀ (now : Int), (d.stop now ⟨some mu, some cu⟩).memorySamples.length =
      (d.stop now ⟨some mu, some cu⟩).cpuSamples.length := by
    intro now
    simp only [Diagnostics.stop]
    split_ifs with hr
    · exact h
    · obtain ⟨h1, h2⟩ := takeSample_ok_lengths
        { d with running := false, endTime := some now } now mu cu
      simp_all
  cases op with
  | start now env =>
    simp only [Op.env] at henv
    subst henv
    simp only [applyOp, Diagnostics.start]
    split_ifs with hr
    · exact h
    · obtain ⟨h1, h2⟩ := takeSample_ok_lengths { d with
        running := true, startTime := some now, memorySamples := [],
        cpuSamples := [], alertTriggerCount := 0, timeOverTarget := 0,
        lastTargetCheck := some now } now mu cu
      simp_all
  | stop now env =>
    simp only [Op.env] at henv
    subst henv
    exact hstop now
  | tick now env =>
    simp only [Op.env] at henv
    subst henv
    simp only [applyOp, Diagnostics.tick]
    split_ifs with hr
    · obtain ⟨h1, h2⟩ := takeSample_ok_lengths d now mu cu
      simp_all
    · exact h
  | reset now env =>
    simp only [applyOp, Diagnostics.reset]
    simp
  | report now env =>
    simp only [Op.env] at henv
    subst henv
    exact hstop now

/-- With no threshold configured, `_takeSample` never touches the alert
counter. -/
theorem takeSample_no_threshold (d : Diagnostics) (now : Int) (env : TickEnv)
    (ht : d.threshold = none) :
    (d.takeSample now env).alertTriggerCount = d.alertTriggerCount := by
  rcases env with ⟨mem, cpu⟩
  cases mem <;> cases cpu <;> (simp only [Diagnostics.takeSample]; try split_ifs) <;>
    simp_all [optTruthy]

/-- With no target configured, `_takeSample` never touches the over-target
accumulator or the checkpoint. -/
theorem takeSample_no_target (d : Diagnostics) (now : Int) (env : TickEnv)
    (ht : d.target = none) :
    (d.takeSample now env).timeOverTarget = d.timeOverTarget ∧
    (d.takeSample now env).lastTargetCheck = d.lastTargetCheck := by
  rcases env with ⟨mem, cpu⟩
  cases mem <;> cases cpu <;> (simp only [Diagnostics.takeSample]; try split_ifs) <;>
    simp_all [optTruthy]

/-- With no threshold configured, no operation can ever raise the alert
counter above zero, and the threshold stays unconfigured. -/
theorem applyOp_no_threshold (d : Diagnostics) (op : Op)
    (ht : d.threshold = none) (h0 : d.alertTriggerCount = 0) :
    (applyOp d op).threshold = none ∧ (applyOp d op).alertTriggerCount = 0 := by
  have hstop : ∀ (now : Int) (env : TickEnv),
      (d.stop now env).threshold = none ∧ (d.stop now env).alertTriggerCount = 0 := by
    intro now env
    simp only [Diagnostics.stop]
    split_ifs with hr
    · exact ⟨ht, h0⟩
    · obtain ⟨-, -, hth, -⟩ := takeSample_frame { d with running := false, endTime := some now } now env
      have hcnt := takeSample_no_threshold { d with running := false, endTime := some now } now env (by simpa using ht)
      simp_all
  cases op with
  | start now env =>
    simp only [applyOp, Diagnostics.start]
    split_ifs with hr
    · exact ⟨ht, h0⟩
    · obtain ⟨-, -, hth, -⟩ := takeSample_frame { d with
        running := true, startTime := some now, memorySamples := [],
        cpuSamples := [], alertTriggerCount := 0, timeOverTarget := 0,
        lastTargetCheck := some now } now env
      have hcnt := takeSample_no_threshold { d with
        running := true, startTime := some now, memorySamples := [],
        cpuSamples := [], alertTriggerCount := 0, timeOverTarget := 0,
        lastTargetCheck := some now } now env (by simpa using ht)
      simp_all
  | stop now env => exact hstop now env
  | tick now env =>
    simp only [applyOp, Diagnostics.tick]
    split_ifs with hr
    · obtain ⟨-, -, hth, -⟩ := takeSample_frame d now env
      have hcnt := takeSample_no_threshold d now env ht
      simp_all
    · exact ⟨ht, h0⟩
  | reset now env =>
    obtain ⟨hth, -⟩ := hstop now env
    simp only [applyOp, Diagnostics.reset]
    simpa using hth
  | report now env => exact hstop now env

/-- With no target configured, no operation can ever accumulate over-target
time, and the target stays unconfigured. -/
theorem applyOp_no_target (d : Diagnostics) (op : Op)
    (ht : d.target = none) (h0 : d.timeOverTarget = 0) :
    (applyOp d op).target = none ∧ (applyOp d op).timeOverTarget = 0 := by
  have hstop : ∀ (now : Int) (env : TickEnv),
      (d.stop now env).target = none ∧ (d.stop now env).timeOverTarget = 0 := by
    intro now env
    simp only [Diagnostics.stop]
    split_ifs with hr
    · exact ⟨ht, h0⟩
    · obtain ⟨-, -, -, -, htg, -⟩ := takeSample_frame { d with running := false, endTime := some now } now env
      obtain ⟨htot, -⟩ := takeSample_no_target { d with running := false, endTime := some now } now env (by simpa using ht)
      simp_all
  cases op with
  | start now env =>
    simp only [applyOp, Diagnostics.start]
    split_ifs with hr
    · exact ⟨ht, h0⟩
    · obtain ⟨-, -, -, -, htg, -⟩ := takeSample_frame { d with
        running := true, startTime := some now, memorySamples := [],
        cpuSamples := [], alertTriggerCount := 0, timeOverTarget := 0,
        lastTargetCheck := some now } now env
      obtain ⟨htot, -⟩ := takeSample_no_target { d with
        running := true, startTime := some now, memorySamples := [],
        cpuSamples := [], alertTriggerCount := 0, timeOverTarget := 0,
        lastTargetCheck := some now } now env (by simpa using ht)
      simp_all
  | stop now env => exact hstop now env
  | tick now env =>
    simp only [applyOp, Diagnostics.tick]
    split_ifs with hr
    · obtain ⟨-, -, -, -, htg, -⟩ := takeSample_frame d now env
      obtain ⟨htot, -⟩ := takeSample_no_target d now env ht
      simp_all
    · exact ⟨ht, h0⟩
  | reset now env =>
    obtain ⟨htg, -⟩ := hstop now env
    simp only [applyOp, Diagnostics.reset]
    simpa using htg
  | report now env => exact hstop now env

/-- Along any operation sequence, the first CPU sample always has
percentage `0`. -/
theorem runOps_cpu_head (ops : List Op) (d : Diagnostics)
    (h : ∀ x ∈ d.cpuSamples.head?, x.percentage = JSNum.finite 0) :
    ∀ x ∈ (runOps d ops).cpuSamples.head?, x.percentage = JSNum.finite 0 := by
  induction ops generalizing d with
  | nil => exact h
  | cons op rest ih => exact ih (applyOp d op) (applyOp_cpu_head d op h)

/-- Along any operation sequence, a session without a configured threshold
keeps a zero alert counter. -/
theorem runOps_no_threshold (ops : List Op) (d : Diagnostics)
    (ht : d.threshold = none) (h0 : d.alertTriggerCount = 0) :
    (runOps d ops).alertTriggerCount = 0 := by
  induction ops generalizing d with
  | nil => exact h0
  | cons op rest ih =>
    obtain ⟨h1, h2⟩ := applyOp_no_threshold d op ht h0
    exact ih (applyOp d op) h1 h2

/-- Along any operation sequence, a session without a configured target
accumulates no over-target time. -/
theorem runOps_no_target (ops : List Op) (d : Diagnostics)
    (ht : d.target = none) (h0 : d.timeOverTarget = 0) :
    (runOps d ops).timeOverTarget = 0 := by
  induction ops generalizing d with
  | nil => exact h0
  | cons op rest ih =>
    obtain ⟨h1, h2⟩ := applyOp_no_target d op ht h0
    exact ih (applyOp d op) h1 h2

/-- One `_takeSample` never decreases the over-target accumulator when its
timestamp is at or past the current checkpoint. -/
theorem takeSample_tot_mono (d : Diagnostics) (now : Int) (env : TickEnv)
    (hc : ∀ t, d.lastTargetCheck = some t → t ≤ now) :
    d.timeOverTarget ≤ (d.takeSample now env).timeOverTarget := by
  rcases env with ⟨mem, cpu⟩
  cases hl : d.lastTargetCheck with
  | none =>
    cases mem <;> cases cpu <;> (simp only [Diagnostics.takeSample]; try split_ifs) <;>
      simp_all [optTruthy]
  | some c =>
    have hcn : c ≤ now := hc c hl
    cases mem <;> cases cpu <;> (simp only [Diagnostics.takeSample]; try split_ifs) <;>
      simp_all [optTruthy] <;> try omega

/-- While running, every non-`reset` operation with a timestamp past the
current checkpoint leaves the over-target accumulator no smaller. -/
theorem applyOp_tot_mono (d : Diagnostics) (op : Op)
    (hrun : d.running = true) (hnr : op.isReset = false)
    (hc : ∀ t, d.lastTargetCheck = some t → t ≤ op.time) :
    d.timeOverTarget ≤ (applyOp d op).timeOverTarget := by
  have hstop : ∀ (now : Int) (env : TickEnv),
      (∀ t, d.lastTargetCheck = some t → t ≤ now) →
      d.timeOverTarget ≤ (d.stop now env).timeOverTarget := by
    intro now env hcn
    simp only [Diagnostics.stop]
    split_ifs with hr
    · exact le_refl _
    · simpa using takeSample_tot_mono { d with running := false, endTime := some now } now env
        (by simpa using hcn)
  cases op with
  | start now env =>
    simp only [applyOp, Diagnostics.start, hrun]
    simp
  | stop now env => exact hstop now env (by simpa [Op.time] using hc)
  | tick now env =>
    simp only [applyOp, Diagnostics.tick]
    split_ifs with hr
    · exact takeSample_tot_mono d now env (by simpa [Op.time] using hc)
    · exact le_refl _
  | reset now env => simp [Op.isReset] at hnr
  | report now env => exact hstop now env (by simpa [Op.time] using hc)

/-- Folding interval ticks with nondecreasing timestamps bounded by `tn`
preserves the target-tracking invariant: the checkpoint stays at most `tn`
and the accumulator stays at most `checkpoint - startTime`; the running flag
and clock end are untouched. -/
theorem runTicks_inv (ticks : List (Int × TickEnv)) (tn : Int) :
    ∀ (d : Diagnostics) (s c : Int),
      d.startTime = some s → d.lastTargetCheck = some c →
      d.timeOverTarget ≤ c - s → c ≤ tn →
      (∀ p ∈ ticks, c ≤ p.1) →
      List.Pairwise (fun a b => a ≤ b) (ticks.map Prod.fst) →
      (∀ p ∈ ticks, p.1 ≤ tn) →
      ∃ c', (runTicks d ticks).startTime = some s ∧
        (runTicks d ticks).lastTargetCheck = some c' ∧
        (runTicks d ticks).timeOverTarget ≤ c' - s ∧ c' ≤ tn ∧
        (runTicks d ticks).running = d.running ∧
        (runTicks d ticks).endTime = d.endTime := by
  induction ticks with
  | nil =>
    intro d s c hs hc htot hctn _ _ _
    exact ⟨c, hs, hc, htot, hctn, rfl, rfl⟩
  | cons p rest ih =>
    intro d s c hs hc htot hctn hmem hpair hbound
    obtain ⟨t1, e1⟩ := p
    have hct1 : c ≤ t1 := hmem ⟨t1, e1⟩ (List.mem_cons_self _ _)
    have ht1tn : t1 ≤ tn := hbound ⟨t1, e1⟩ (List.mem_cons_self _ _)
    have hp := hpair
    simp only [List.map_cons, List.pairwise_cons] at hp
    have hrest_le : ∀ q ∈ rest, t1 ≤ q.1 := by
      intro q hq
      exact hp.1 q.1 (List.mem_map_of_mem Prod.fst hq)
    have hpair' : List.Pairwise (fun a b => a ≤ b) (rest.map Prod.fst) := hp.2
    have hbound' : ∀ q ∈ rest, q.1 ≤ tn := fun q hq => hbound q (List.mem_cons_of_mem _ hq)
    have hrun : runTicks d ((t1, e1) :: rest) = runTicks (d.tick t1 e1) rest := rfl
    rw [hrun]
    by_cases harm : d.intervalArmed
    · have htick : d.tick t1 e1 = d.takeSample t1 e1 := by
        simp [Diagnostics.tick, harm]
      obtain ⟨c1, hs1, hc1, htot1, hcc1, hc1t1⟩ :=
        takeSample_target_inv d t1 e1 s c hs hc htot hct1
      obtain ⟨-, -, -, -, -, -, hr1, -, he1', -⟩ := takeSample_frame d t1 e1
      have h1 := ih (d.tick t1 e1) s c1 (by rw [htick]; exact hs1) (by rw [htick]; exact hc1)
        (by rw [htick]; exact htot1) (le_trans hc1t1 ht1tn)
        (fun q hq => le_trans hc1t1 (hrest_le q hq)) hpair' hbound'
      obtain ⟨c', hA, hB, hC, hD, hE, hF⟩ := h1
      refine ⟨c', hA, hB, hC, hD, ?_, ?_⟩
      · rw [hE, htick, hr1]
      · rw [hF, htick, he1']
    · have htick : d.tick t1 e1 = d := by simp [Diagnostics.tick, harm]
      rw [htick]
      exact ih d s c hs hc htot hctn (fun q hq => hmem q (List.mem_cons_of_mem _ hq))
        hpair' hbound'

/-- `stop()` is a no-op on a session that is not running. -/
theorem stop_of_not_running (d : Diagnostics) (now : Int) (env : TickEnv)
    (h : d.running = false) : d.stop now env = d := by
  simp [Diagnostics.stop, h]

/-- Dividing a JS number by a count of `1` returns it unchanged. -/
theorem jsDivByLen_one (x : JSNum) : jsDivByLen x 1 = x := by
  cases x <;> simp [jsDivByLen]

/-- `stop()` leaves every configuration field unchanged. -/
theorem stop_config_frame (d : Diagnostics) (now : Int) (env : TickEnv) :
    (d.stop now env).name = d.name ∧
    (d.stop now env).interval = d.interval ∧
    (d.stop now env).threshold = d.threshold ∧
    (d.stop now env).alert = d.alert ∧
    (d.stop now env).target = d.target ∧
    (d.stop now env).monitorEventLoop = d.monitorEventLoop := by
  simp only [Diagnostics.stop]
  split_ifs with h
  · simp
  · obtain ⟨h1, h2, h3, h4, h5, h6, -, -, -, -⟩ :=
      takeSample_frame { d with running := false, endTime := some now } now env
    simp_all

/-- A `start`/`stop` pair with successful captures collects exactly two
samples in each sequence. -/
theorem start_stop_lengths (d : Diagnostics) (hrun : d.running = false)
    (t0 t1 : Int) (mu0 mu1 : MemUsage) (cu0 cu1 : CpuUsage) :
    ((d.start t0 ⟨some mu0, some cu0⟩).stop t1 ⟨some mu1, some cu1⟩).memorySamples.length = 2 ∧
    ((d.start t0 ⟨some mu0, some cu0⟩).stop t1 ⟨some mu1, some cu1⟩).cpuSamples.length = 2 := by
  set d1 : Diagnostics := { d with
    running := true, startTime := some t0, memorySamples := [],
    cpuSamples := [], alertTriggerCount := 0, timeOverTarget := 0,
    lastTargetCheck := some t0 } with hd1
  have hstart : d.start t0 ⟨some mu0, some cu0⟩ =
      { d1.takeSample t0 ⟨some mu0, some cu0⟩ with intervalArmed := true } := by
    simp [Diagnostics.start, hrun, hd1]
  obtain ⟨hm1, hc1⟩ := takeSample_ok_lengths d1 t0 mu0 cu0
  obtain ⟨-, -, -, -, -, -, hr1, -, -, -⟩ := takeSample_frame d1 t0 ⟨some mu0, some cu0⟩
  have hrun1 : (d.start t0 ⟨some mu0, some cu0⟩).running = true := by
    rw [hstart]
    simpa using hr1
  set dS : Diagnostics := d.start t0 ⟨some mu0, some cu0⟩ with hdS
  have hmS : dS.memorySamples.length = 1 := by
    rw [hstart]
    simpa using hm1
  have hcS : dS.cpuSamples.length = 1 := by
    rw [hstart]
    simpa using hc1
  set dS' : Diagnostics := { dS with running := false, endTime := some t1 } with hdS'
  have hstop : dS.stop t1 ⟨some mu1, some cu1⟩ =
      { dS'.takeSample t1 ⟨some mu1, some cu1⟩ with intervalArmed := false } := by
    simp [Diagnostics.stop, hrun1, hdS']
  obtain ⟨hm2, hc2⟩ := takeSample_ok_lengths dS' t1 mu1 cu1
  rw [hstop]
  constructor
  · simpa [hdS', hmS] using hm2
  · simpa [hdS', hcS] using hc2

/-! ## Concrete data shared by witnesses and counterexamples -/

/-- A fixed `process.memoryUsage()` reading (heap used: 20 bytes). -/
def demoMem : MemUsage :=
  { rss := 100, heapTotal := 60, heapUsed := 20, external := 3, arrayBuffers := some 1 }

/-- A fixed `process.cpuUsage()` reading. -/
def demoCpu : CpuUsage := { user := 500, system := 300 }

/-- A tick on which both capture calls succeed. -/
def demoEnv : TickEnv := { mem := some demoMem, cpu := some demoCpu }

/-- A tick on which the memory capture succeeds but `process.cpuUsage()`
throws. -/
def cpuFailEnv : TickEnv := { mem := some demoMem, cpu := none }

/-- A fixed configuration: named session, 50 ms interval, threshold 5 bytes,
target 10 bytes. -/
def demoOpts : Options :=
  { name := some "demo", interval := some 50, threshold := some 5, target := some 10 }

/-- The session `mkDiagnostics demoOpts` constructs. -/
def demoDiag : Diagnostics :=
  { name := "demo", interval := 50, threshold := some 5, alert := none, target := some 10,
    monitorEventLoop := true, running := false, startTime := none, endTime := none,
    intervalArmed := false, memorySamples := [], cpuSamples := [],
    alertTriggerCount := 0, timeOverTarget := 0, lastTargetCheck := none }

/-- The first CPU sample of a `start 100`/`stop 200` run over `demoEnv`. -/
def demoCpuA : CPUSnapshot := mkCPUSnapshot 100 demoCpu none

/-- The second CPU sample of that run. -/
def demoCpuB : CPUSnapshot := mkCPUSnapshot 200 demoCpu (some demoCpuA)

/-- A complete `start`/`stop` cycle as an operation list. -/
def demoOps : List Op := [Op.start 100 demoEnv, Op.stop 200 demoEnv]

/-- The session constructed from `demoOpts` with `interval: 0`. -/
def demoDiagI : Diagnostics := { demoDiag with interval := 5000 }

/-- The session constructed from `demoOpts` with `threshold: 0`. -/
def demoDiagT : Diagnostics := { demoDiag with threshold := none }

/-- The session constructed from `demoOpts` with `target: 0`. -/
def demoDiagG : Diagnostics := { demoDiag with target := none }

/-! ## The claims -/

/-- C1: the claim says sample counts strictly increase across two
`start()`/`stop()` cycles with no intervening `reset()`. The code disagrees:
`start()` clears `memorySamples`/`cpuSamples`, so a second cycle that takes
the same number of ticks ends with the same count (here 2 = 2, not 2 < 2);
the repo's own test (`test/common.test.js`, "Multiple start/stop cycles")
asserts strict growth, so this is a bug in the code. The `reset()` half of
the claim does hold: after `reset()` the collected-sample count is zero. -/
theorem c1_start_clears_samples_across_cycles :
    ((demoDiag.start 100 demoEnv).stop 200 demoEnv).memorySamples.length = 2 ∧
    ((((demoDiag.start 100 demoEnv).stop 200 demoEnv).start 300 demoEnv).stop 400
        demoEnv).memorySamples.length = 2 ∧
    ¬ (((demoDiag.start 100 demoEnv).stop 200 demoEnv).memorySamples.length <
        ((((demoDiag.start 100 demoEnv).stop 200 demoEnv).start 300 demoEnv).stop 400
          demoEnv).memorySamples.length) ∧
    ((((demoDiag.start 100 demoEnv).stop 200 demoEnv).reset 250 demoEnv).status
        260).samplesCollected = 0 := by
  refine ⟨?_, ?_, ?_, ?_⟩ <;> decide

/-- C2: the claim says a CPU capture whose timestamp equals the previous
capture's avoids division by zero and defines the percentage as `0`. The
code disagrees: `(totalDelta / (timeDelta * 1000)) * 100` is evaluated with
`timeDelta = 0`, which in JS yields `Infinity` (positive CPU delta) or `NaN`
(zero CPU delta), never `0`; the spec explicitly requires `0` here, so this
is a bug in the code. -/
theorem c2_zero_time_delta_divides_by_zero :
    (mkCPUSnapshot 1000 ⟨5, 0⟩ (some (mkCPUSnapshot 1000 ⟨0, 0⟩ none))).percentage
      = JSNum.posInf ∧
    (mkCPUSnapshot 1000 ⟨0, 0⟩ (some (mkCPUSnapshot 1000 ⟨0, 0⟩ none))).percentage
      = JSNum.nan ∧
    JSNum.posInf ≠ JSNum.finite 0 ∧ JSNum.nan ≠ JSNum.finite 0 := by
  refine ⟨?_, ?_, by decide, by decide⟩ <;>
    · simp [mkCPUSnapshot, jsDiv, JSNum.mul100]

/-- C3: for a session with a configured target that is started, ticked at
nondecreasing timestamps, and stopped, the report satisfies
`analysis.timeOverTarget + analysis.timeUnderTarget = clock.duration`
exactly (well within one sampling interval), and the sum never exceeds the
true elapsed duration `tn - t0` of the session. -/
theorem c3_target_time_partition (opts : Options) (d0 : Diagnostics)
    (h0 : mkDiagnostics opts = Except.ok d0)
    (g : Int) (hg : opts.target = some g) (hg0 : g ≠ 0)
    (t0 tn : Int) (ht0 : 0 < t0) (htn : t0 ≤ tn)
    (ticks : List (Int × TickEnv))
    (hlo : ∀ p ∈ ticks, t0 ≤ p.1) (hhi : ∀ p ∈ ticks, p.1 ≤ tn)
    (hpair : List.Pairwise (fun a b => a ≤ b) (ticks.map Prod.fst))
    (e0 en : TickEnv) (tr : Int) (er : TickEnv) :
    (((runTicks (d0.start t0 e0) ticks).stop tn en).report tr er).timeOverTarget +
      (((runTicks (d0.start t0 e0) ticks).stop tn en).report tr er).timeUnderTarget =
      (((runTicks (d0.start t0 e0) ticks).stop tn en).report tr er).clockDuration ∧
    (((runTicks (d0.start t0 e0) ticks).stop tn en).report tr er).timeOverTarget +
      (((runTicks (d0.start t0 e0) ticks).stop tn en).report tr er).timeUnderTarget ≤
      tn - t0 := by
  -- the constructed session is idle
  have hrun0 : d0.running = false := by
    unfold mkDiagnostics at h0
    split at h0
    · cases h0
    · cases h0
      rfl
  -- the state after `start`
  set d1 : Diagnostics := { d0 with
    running := true, startTime := some t0, memorySamples := [],
    cpuSamples := [], alertTriggerCount := 0, timeOverTarget := 0,
    lastTargetCheck := some t0 } with hd1
  have hstart : d0.start t0 e0 = { d1.takeSample t0 e0 with intervalArmed := true } := by
    simp [Diagnostics.start, hrun0, hd1]
  obtain ⟨cS, hSs, hSc, hStot, hScl, hScr⟩ :=
    takeSample_target_inv d1 t0 e0 t0 t0 rfl rfl (by simp) (le_refl t0)
  obtain ⟨-, -, -, -, -, -, hSrun, -, hSend, -⟩ := takeSample_frame d1 t0 e0
  -- fold the interval ticks
  obtain ⟨cF, hFs, hFc, hFtot, hFtn, hFrun, hFend⟩ :=
    runTicks_inv ticks tn (d0.start t0 e0) t0 cS
      (by rw [hstart]; simpa using hSs)
      (by rw [hstart]; simpa using hSc)
      (by rw [hstart]; simpa using hStot)
      (le_trans hScr htn)
      (fun p hp => le_trans hScr (hlo p hp))
      hpair hhi
  have hFrun' : (runTicks (d0.start t0 e0) ticks).running = true := by
    rw [hFrun, hstart]
    simpa using hSrun
  -- the final sample taken by `stop`
  set dM : Diagnostics := runTicks (d0.start t0 e0) ticks with hdM
  set dM' : Diagnostics := { dM with running := false, endTime := some tn } with hdM'
  have hstop : dM.stop tn en = { dM'.takeSample tn en with intervalArmed := false } := by
    simp [Diagnostics.stop, hFrun', hdM']
  obtain ⟨cL, hLs, hLc, hLtot, hLcl, hLcr⟩ :=
    takeSample_target_inv dM' tn en t0 cF (by simp [hdM', hFs])
      (by simp [hdM', hFc]) (by simpa [hdM'] using hFtot) hFtn
  obtain ⟨-, -, -, -, -, -, hLrun, -, hLend, -⟩ := takeSample_frame dM' tn en
  have hFrunF : (dM.stop tn en).running = false := by
    rw [hstop]
    simpa [hdM'] using hLrun
  have hFstart : (dM.stop tn en).startTime = some t0 := by
    rw [hstop]
    simpa using hLs
  have hFendT : (dM.stop tn en).endTime = some tn := by
    rw [hstop]
    simpa [hdM'] using hLend
  have hFtotB : (dM.stop tn en).timeOverTarget ≤ tn - t0 := by
    have h1 : (dM.stop tn en).timeOverTarget ≤ cL - t0 := by
      rw [hstop]
      simpa using hLtot
    omega
  -- the report over the stopped state
  have hrep : (dM.stop tn en).report tr er = (dM.stop tn en).reportFrom tr := by
    simp only [Diagnostics.report]
    rw [stop_of_not_running _ tr er hFrunF]
  rw [hrep]
  have hdur : jsOrElse (dM.stop tn en).endTime tr - jsOrElse (dM.stop tn en).startTime tr
      = tn - t0 := by
    rw [hFstart, hFendT]
    simp only [jsOrElse]
    split_ifs <;> omega
  simp only [Diagnostics.reportFrom, hdur]
  rcases le_total (tn - t0 - (dM.stop tn en).timeOverTarget) 0 with hle | hle
  · constructor
    · rw [max_eq_left hle]
      omega
    · rw [max_eq_left hle]
      omega
  · constructor
    · rw [max_eq_right hle]
      omega
    · rw [max_eq_right hle]
      omega

/-- C3 witness: a concrete session with target 10 bytes, started at 100 ms,
ticked at 150 ms, stopped at 200 ms. -/
theorem c3_target_time_partition_witness :
    mkDiagnostics demoOpts = Except.ok demoDiag ∧
    demoOpts.target = some 10 ∧
    ((((runTicks (demoDiag.start 100 demoEnv) [(150, demoEnv)]).stop 200 demoEnv).report
          500 demoEnv).timeOverTarget +
        (((runTicks (demoDiag.start 100 demoEnv) [(150, demoEnv)]).stop 200 demoEnv).report
          500 demoEnv).timeUnderTarget =
        (((runTicks (demoDiag.start 100 demoEnv) [(150, demoEnv)]).stop 200 demoEnv).report
          500 demoEnv).clockDuration ∧
      (((runTicks (demoDiag.start 100 demoEnv) [(150, demoEnv)]).stop 200 demoEnv).report
          500 demoEnv).timeOverTarget +
        (((runTicks (demoDiag.start 100 demoEnv) [(150, demoEnv)]).stop 200 demoEnv).report
          500 demoEnv).timeUnderTarget ≤ 200 - 100) :=
  ⟨rfl, rfl,
    c3_target_time_partition demoOpts demoDiag rfl 10 rfl (by decide) 100 200 (by decide)
      (by decide) [(150, demoEnv)]
      (by intro p hp; simp only [List.mem_singleton] at hp; subst hp; norm_num)
      (by intro p hp; simp only [List.mem_singleton] at hp; subst hp; norm_num)
      (by simp) demoEnv demoEnv 500 demoEnv⟩

/-- C4 counterexample: a completed sampling tick in which the CPU capture
step fails (here the immediate tick of `start()`) leaves the memory sequence
one sample longer than the CPU sequence, so the claimed
"including ticks in which an internal capture step fails" equality is false
on the code. -/
theorem c4_partial_tick_breaks_parity :
    (demoDiag.start 100 cpuFailEnv).memorySamples.length = 1 ∧
    (demoDiag.start 100 cpuFailEnv).cpuSamples.length = 0 := by decide

/-- C4 (amended): after every operation whose capture steps both succeed the
memory and CPU sample sequences have equal length, and a `start()` then
`stop()` with successful captures leaves both sequences with equal length of
at least 2. (A tick whose CPU capture throws after the memory push breaks
the equality; see the counterexample.) -/
theorem c4_sample_length_parity (d : Diagnostics) (op : Op)
    (hm : op.env.mem.isSome = true) (hc : op.env.cpu.isSome = true)
    (hpar : d.memorySamples.length = d.cpuSamples.length)
    (hrun : d.running = false)
    (t0 t1 : Int) (mu0 mu1 : MemUsage) (cu0 cu1 : CpuUsage) :
    (applyOp d op).memorySamples.length = (applyOp d op).cpuSamples.length ∧
    ((d.start t0 ⟨some mu0, some cu0⟩).stop t1 ⟨some mu1, some cu1⟩).memorySamples.length =
      ((d.start t0 ⟨some mu0, some cu0⟩).stop t1 ⟨some mu1, some cu1⟩).cpuSamples.length ∧
    2 ≤ ((d.start t0 ⟨some mu0, some cu0⟩).stop t1 ⟨some mu1, some cu1⟩).memorySamples.length := by
  obtain ⟨hm2, hc2⟩ := start_stop_lengths d hrun t0 t1 mu0 mu1 cu0 cu1
  exact ⟨applyOp_parity d op hm hc hpar, by rw [hm2, hc2], by rw [hm2]⟩

/-- C4 witness: a fresh session, one successful `start` operation, and a
concrete `start`/`stop` cycle over successful captures. -/
theorem c4_sample_length_parity_witness :
    (Op.start 100 demoEnv).env.mem.isSome = true ∧
    (Op.start 100 demoEnv).env.cpu.isSome = true ∧
    demoDiag.memorySamples.length = demoDiag.cpuSamples.length ∧
    demoDiag.running = false ∧
    ((applyOp demoDiag (Op.start 100 demoEnv)).memorySamples.length =
        (applyOp demoDiag (Op.start 100 demoEnv)).cpuSamples.length ∧
      ((demoDiag.start 100 ⟨some demoMem, some demoCpu⟩).stop 200
            ⟨some demoMem, some demoCpu⟩).memorySamples.length =
        ((demoDiag.start 100 ⟨some demoMem, some demoCpu⟩).stop 200
            ⟨some demoMem, some demoCpu⟩).cpuSamples.length ∧
      2 ≤ ((demoDiag.start 100 ⟨some demoMem, some demoCpu⟩).stop 200
            ⟨some demoMem, some demoCpu⟩).memorySamples.length) :=
  ⟨by decide, by decide, rfl, rfl,
    c4_sample_length_parity demoDiag (Op.start 100 demoEnv) (by decide) (by decide) rfl rfl
      100 200 demoMem demoMem demoCpu demoCpu⟩

/-- C5: with a configured target, while the session is running, every
operation other than `reset()` whose timestamp is at or past the current
target checkpoint leaves the accumulated `timeOverTarget` no smaller (each
tick adds a nonnegative delta or nothing). -/
theorem c5_timeOverTarget_monotone (d : Diagnostics) (op : Op)
    (htarget : optTruthy d.target = true)
    (hrun : d.running = true) (hnr : op.isReset = false)
    (hclock : ∀ t, d.lastTargetCheck = some t → t ≤ op.time) :
    d.timeOverTarget ≤ (applyOp d op).timeOverTarget :=
  applyOp_tot_mono d op hrun hnr hclock

/-- C5 witness: a running session with target 10 bytes and checkpoint at
100 ms, ticked at 150 ms. -/
theorem c5_timeOverTarget_monotone_witness :
    optTruthy (demoDiag.start 100 demoEnv).target = true ∧
    (demoDiag.start 100 demoEnv).running = true ∧
    (Op.tick 150 demoEnv).isReset = false ∧
    (demoDiag.start 100 demoEnv).timeOverTarget ≤
      (applyOp (demoDiag.start 100 demoEnv) (Op.tick 150 demoEnv)).timeOverTarget :=
  ⟨by decide, by decide, by decide,
    c5_timeOverTarget_monotone (demoDiag.start 100 demoEnv) (Op.tick 150 demoEnv)
      (by decide) (by decide) (by decide)
      (by
        intro t ht
        have hl : (demoDiag.start 100 demoEnv).lastTargetCheck = some 100 := rfl
        rw [hl] at ht
        injection ht with h
        show t ≤ (150 : Int)
        omega)⟩

/-- C6 counterexample: the empty string is a name, yet constructing with it
throws the configuration error (JS `!options.name` treats `""` as missing),
so "constructing with a name always succeeds" is false as stated. -/
theorem c6_empty_name_rejected :
    mkDiagnostics { name := some "" } =
      Except.error "Diagnostics requires a \"name\" option" := rfl

/-- C6 (amended): constructing without a name — absent, or the falsy empty
string — raises the configuration error synchronously, and constructing with
a non-empty name always succeeds (construction never fails for any other
reason: no other option is validated). -/
theorem c6_name_validation (optsA optsB : Options) (s : String)
    (hA : optsA.name = none ∨ optsA.name = some "")
    (hB : optsB.name = some s) (hne : s ≠ "") :
    mkDiagnostics optsA = Except.error "Diagnostics requires a \"name\" option" ∧
    exceptIsOk (mkDiagnostics optsB) = true := by
  constructor
  · rcases hA with h | h <;> simp [mkDiagnostics, h]
  · simp [mkDiagnostics, hB, hne, exceptIsOk]

/-- C6 witness: a nameless configuration is rejected and `demoOpts` is
accepted. -/
theorem c6_name_validation_witness :
    mkDiagnostics { name := none } =
      Except.error "Diagnostics requires a \"name\" option" ∧
    exceptIsOk (mkDiagnostics demoOpts) = true :=
  c6_name_validation { name := none } demoOpts "demo" (Or.inl rfl) rfl (by decide)

/-- C7: in any reachable session state the first CPU sample has
percentage `0`; and in a stopped session with exactly 2 CPU samples the
report's CPU statistics are computed over exactly the 1 data point left
after dropping the first sample (`cpuSamples.slice(1)`), so peak, average
and low all equal the second sample's percentage. -/
theorem c7_cpu_stats_exclude_first_sample (opts : Options) (d0 : Diagnostics) (ops : List Op)
    (h0 : mkDiagnostics opts = Except.ok d0)
    (a b : CPUSnapshot) (tr : Int) (er : TickEnv)
    (hrun : (runOps d0 ops).running = false)
    (hcs : (runOps d0 ops).cpuSamples = [a, b]) :
    a.percentage = JSNum.finite 0 ∧
    ((runOps d0 ops).report tr er).cpuStats =
      { peak := b.percentage, average := b.percentage, low := b.percentage } ∧
    ((runOps d0 ops).cpuSamples.drop 1).length = 1 := by
  have hcpu0 : d0.cpuSamples = [] := by
    unfold mkDiagnostics at h0
    split at h0
    · cases h0
    · cases h0
      rfl
  have hhead := runOps_cpu_head ops d0 (by simp [hcpu0])
  refine ⟨?_, ?_, ?_⟩
  · apply hhead
    rw [hcs]
    rfl
  · have hrep : (runOps d0 ops).report tr er = (runOps d0 ops).reportFrom tr := by
      simp only [Diagnostics.report]
      rw [stop_of_not_running _ tr er hrun]
    rw [hrep]
    simp only [Diagnostics.reportFrom, hcs]
    simp [calculateStatsJS, jsDivByLen_one]
  · rw [hcs]
    rfl

/-- C7 witness: a `start 100`/`stop 200` cycle collecting exactly the two
CPU samples `demoCpuA`, `demoCpuB`. -/
theorem c7_cpu_stats_exclude_first_sample_witness :
    (runOps demoDiag demoOps).running = false ∧
    (runOps demoDiag demoOps).cpuSamples = [demoCpuA, demoCpuB] ∧
    (demoCpuA.percentage = JSNum.finite 0 ∧
      ((runOps demoDiag demoOps).report 500 demoEnv).cpuStats =
        { peak := demoCpuB.percentage, average := demoCpuB.percentage,
          low := demoCpuB.percentage } ∧
      ((runOps demoDiag demoOps).cpuSamples.drop 1).length = 1) :=
  ⟨by decide, rfl,
    c7_cpu_stats_exclude_first_sample demoOpts demoDiag demoOps rfl demoCpuA demoCpuB
      500 demoEnv (by decide) rfl⟩

/-- C8: `reset()` clears the sample sequences, the alert counter, the
over-target accumulator, the target checkpoint, and both clock timestamps,
while leaving every configuration field (name, interval, threshold, target,
alert callback, `monitorEventLoop` flag) unchanged. -/
theorem c8_reset_clears_state_preserves_config (d : Diagnostics) (now : Int) (env : TickEnv) :
    (d.reset now env).name = d.name ∧
    (d.reset now env).interval = d.interval ∧
    (d.reset now env).threshold = d.threshold ∧
    (d.reset now env).alert = d.alert ∧
    (d.reset now env).target = d.target ∧
    (d.reset now env).monitorEventLoop = d.monitorEventLoop ∧
    (d.reset now env).memorySamples = [] ∧
    (d.reset now env).cpuSamples = [] ∧
    (d.reset now env).alertTriggerCount = 0 ∧
    (d.reset now env).timeOverTarget = 0 ∧
    (d.reset now env).lastTargetCheck = none ∧
    (d.reset now env).startTime = none ∧
    (d.reset now env).endTime = none := by
  obtain ⟨h1, h2, h3, h4, h5, h6⟩ := stop_config_frame d now env
  simp only [Diagnostics.reset]
  simp_all

/-- C9: the formatting equations hold exactly: `formatBytes(0) = "0 B"`,
`formatBytes(1024) = "1.00 KB"` (1024-based units, two decimal places),
`formatDuration(0) = "0ms"`, `formatDuration(90000) = "1m 30s"`
(coarsest-to-finest nonzero units). -/
theorem c9_formatting_equations :
    formatBytes 0 = "0 B" ∧ formatBytes 1024 = "1.00 KB" ∧
    formatDuration 0 = "0ms" ∧ formatDuration 90000 = "1m 30s" := by
  refine ⟨rfl, ?_, rfl, ?_⟩ <;> decide

/-- C10: falsy option values collapse to the default or disabled state:
`interval: 0` constructs the very same session as omitting `interval` (and
that session's interval is the default 5000 ms); `threshold: 0` and
`target: 0` construct the very same sessions as omitting the option, so no
threshold alert ever fires and no over-target time is ever accumulated along
any operation sequence. -/
theorem c10_falsy_options_fall_back (opts : Options) (dI dT dG : Diagnostics) (ops : List Op)
    (hI : mkDiagnostics { opts with interval := some 0 } = Except.ok dI)
    (hT : mkDiagnostics { opts with threshold := some 0 } = Except.ok dT)
    (hG : mkDiagnostics { opts with target := some 0 } = Except.ok dG) :
    mkDiagnostics { opts with interval := some 0 } =
      mkDiagnostics { opts with interval := none } ∧
    mkDiagnostics { opts with threshold := some 0 } =
      mkDiagnostics { opts with threshold := none } ∧
    mkDiagnostics { opts with target := some 0 } =
      mkDiagnostics { opts with target := none } ∧
    dI.interval = 5000 ∧
    dT.threshold = none ∧ (runOps dT ops).alertTriggerCount = 0 ∧
    dG.target = none ∧ (runOps dG ops).timeOverTarget = 0 := by
  have hIint : dI.interval = 5000 := by
    unfold mkDiagnostics at hI
    split at hI
    · cases hI
    · cases hI
      simp [jsOrElse]
  have hTthr : dT.threshold = none ∧ dT.alertTriggerCount = 0 := by
    unfold mkDiagnostics at hT
    split at hT
    · cases hT
    · cases hT
      simp [jsOrNull]
  have hGtar : dG.target = none ∧ dG.timeOverTarget = 0 := by
    unfold mkDiagnostics at hG
    split at hG
    · cases hG
    · cases hG
      simp [jsOrNull]
  refine ⟨?_, ?_, ?_, hIint, hTthr.1, ?_, hGtar.1, ?_⟩
  · simp [mkDiagnostics, jsOrElse]
  · simp [mkDiagnostics, jsOrNull]
  · simp [mkDiagnostics, jsOrNull]
  · exact runOps_no_threshold ops dT hTthr.1 hTthr.2
  · exact runOps_no_target ops dG hGtar.1 hGtar.2

/-- C10 witness: `demoOpts` with each option zeroed, run through a full
`start`/`stop` cycle. -/
theorem c10_falsy_options_fall_back_witness :
    mkDiagnostics { demoOpts with interval := some 0 } = Except.ok demoDiagI ∧
    mkDiagnostics { demoOpts with threshold := some 0 } = Except.ok demoDiagT ∧
    mkDiagnostics { demoOpts with target := some 0 } = Except.ok demoDiagG ∧
    (mkDiagnostics { demoOpts with interval := some 0 } =
        mkDiagnostics { demoOpts with interval := none } ∧
      mkDiagnostics { demoOpts with threshold := some 0 } =
        mkDiagnostics { demoOpts with threshold := none } ∧
      mkDiagnostics { demoOpts with target := some 0 } =
        mkDiagnostics { demoOpts with target := none } ∧
      demoDiagI.interval = 5000 ∧
      demoDiagT.threshold = none ∧ (runOps demoDiagT demoOps).alertTriggerCount = 0 ∧
      demoDiagG.target = none ∧ (runOps demoDiagG demoOps).timeOverTarget = 0) :=
  ⟨rfl, rfl, rfl,
    c10_falsy_options_fall_back demoOpts demoDiagI demoDiagT demoDiagG demoOps rfl rfl rfl⟩
